import Mathlib

/-!
Shallow embedding of the festival wish bot (a single-file Discord bot):
string heuristics for classification, the per-day generation cache, the
text and image generation adapters, per-guild settings, the slash-command
handlers and the per-guild step of the daily orchestration, together with
theorems checking the natural-language specification against them.
-/

/-- ASCII-faithful model of the JS `String.prototype.toLowerCase` call. -/
def jsToLower (s : String) : String := ⟨s.data.map Char.toLower⟩

/-- JS string truthiness: a string is truthy iff it is nonempty. -/
def truthyStr (s : String) : Bool := !s.data.isEmpty

/-- Model of the JS `String.prototype.trim` call (ASCII whitespace). -/
def jsTrim (s : String) : String :=
  ⟨((s.data.dropWhile Char.isWhitespace).reverse.dropWhile Char.isWhitespace).reverse⟩

/-- Char-list test: does the second list start with the first one? -/
def startsWithL : List Char → List Char → Bool
  | [], _ => true
  | _ :: _, [] => false
  | a :: as, b :: bs => a == b && startsWithL as bs

/-- Char-list substring test: models JS `String.includes` and a test of a
literal-alternation regular expression against a string. -/
def hasSubL (needle : List Char) : List Char → Bool
  | [] => startsWithL needle []
  | b :: bs => startsWithL needle (b :: bs) || hasSubL needle bs

/-- String substring test. -/
def strHasSub (needle hay : String) : Bool := hasSubL needle.data hay.data

/-- A regular expression of the shape /(k1|k2|...)/ tested on a string:
some keyword of the list occurs as a substring. -/
def regexTest (keys : List String) (n : String) : Bool :=
  keys.any (fun k => strHasSub k n)

/-- Specification-level statement that `k` occurs as a contiguous substring of `hay`. -/
def ContainsSub (k hay : String) : Prop := ∃ s t, hay.data = s ++ k.data ++ t

/-- Specification-level statement that some keyword of `keys` occurs in the
lower-cased `name`. -/
def KeyMatch (keys : List String) (name : String) : Prop :=
  ∃ k, k ∈ keys ∧ ContainsSub k (jsToLower name)

theorem startsWithL_iff (a : List Char) :
    ∀ b, startsWithL a b = true ↔ ∃ t, b = a ++ t := by
  induction a with
  | nil =>
    intro b
    constructor
    · intro _; exact ⟨b, rfl⟩
    · intro _; rfl
  | cons x xs ih =>
    intro b
    cases b with
    | nil =>
      simp only [startsWithL, List.cons_append]
      constructor
      · intro h; exact absurd h (by simp)
      · rintro ⟨t, ht⟩; exact absurd ht (by simp)
    | cons y ys =>
      simp only [startsWithL, Bool.and_eq_true, beq_iff_eq, ih, List.cons_append]
      constructor
      · rintro ⟨hxy, t, ht⟩
        exact ⟨t, by rw [hxy, ht]⟩
      · rintro ⟨t, ht⟩
        injection ht with h1 h2
        exact ⟨h1.symm, t, h2⟩

theorem hasSubL_iff (a b : List Char) :
    hasSubL a b = true ↔ ∃ s t, b = s ++ a ++ t := by
  induction b with
  | nil =>
    rw [show hasSubL a [] = startsWithL a [] from rfl, startsWithL_iff]
    constructor
    · rintro ⟨t, ht⟩; exact ⟨[], t, by simpa using ht⟩
    · rintro ⟨s, t, hst⟩
      have h0 : (s ++ a) ++ t = [] := hst.symm
      rcases List.append_eq_nil.mp h0 with ⟨h1, h2⟩
      rcases List.append_eq_nil.mp h1 with ⟨h3, h4⟩
      exact ⟨t, by rw [h4]; simpa using h2.symm⟩
  | cons y ys ih =>
    rw [show hasSubL a (y :: ys) = (startsWithL a (y :: ys) || hasSubL a ys) from rfl]
    simp only [Bool.or_eq_true, startsWithL_iff, ih]
    constructor
    · rintro (⟨t, ht⟩ | ⟨s, t, hst⟩)
      · exact ⟨[], t, by simpa using ht⟩
      · exact ⟨y :: s, t, by simp [hst]⟩
    · rintro ⟨s, t, hst⟩
      cases s with
      | nil => exact Or.inl ⟨t, by simpa using hst⟩
      | cons z zs =>
        injection hst with h1 h2
        exact Or.inr ⟨zs, t, h2⟩

theorem strHasSub_iff (k hay : String) :
    strHasSub k hay = true ↔ ContainsSub k hay :=
  hasSubL_iff k.data hay.data

theorem strHasSub_eq_false_iff (k hay : String) :
    strHasSub k hay = false ↔ ¬ ContainsSub k hay := by
  rw [← strHasSub_iff]
  cases strHasSub k hay <;> simp

theorem regexTest_iff (keys : List String) (n : String) :
    regexTest keys n = true ↔ ∃ k, k ∈ keys ∧ ContainsSub k n := by
  unfold regexTest
  rw [List.any_eq_true]
  constructor
  · rintro ⟨k, hk, hsub⟩
    exact ⟨k, hk, (strHasSub_iff k n).mp hsub⟩
  · rintro ⟨k, hk, hsub⟩
    exact ⟨k, hk, (strHasSub_iff k n).mpr hsub⟩

theorem truthyStr_iff (s : String) : truthyStr s = true ↔ ¬ s = "" := by
  cases s with
  | mk l =>
    cases l with
    | nil => exact ⟨fun h => absurd h (by simp [truthyStr]), fun h => absurd rfl h⟩
    | cons c cs =>
      constructor
      · intro _ h
        have : (c :: cs : List Char) = [] := congrArg String.data h
        exact absurd this (by simp)
      · intro _; rfl

theorem truthyStr_eq_false_iff (s : String) : truthyStr s = false ↔ s = "" := by
  constructor
  · intro h
    by_contra hne
    have ht := (truthyStr_iff s).mpr hne
    rw [h] at ht
    exact absurd ht (by simp)
  · intro h
    subst h
    rfl

/-- Keyword alternation of the hindu branch of classifyFaith (source line 93). -/
def hinduKeys : List String :=
  ["diwali", "deepavali", "navratri", "holi", "ram navami", "krishna",
   "janmashtami", "ganesh", "chaturthi", "mahashivratri", "dussehra",
   "vijayadashami", "pongal", "makar sankranti", "onam", "raksha bandhan",
   "karva", "karwa"]

/-- Keyword alternation of the muslim branch of classifyFaith (source line 94). -/
def muslimKeys : List String :=
  ["eid", "fitr", "adha", "ramadan", "ramzan", "milad", "mawlid", "ashura",
   "muharram", "shab-e-barat"]

/-- Keyword alternation of the christian branch of classifyFaith (source line 95). -/
def christianKeys : List String :=
  ["christ", "christmas", "easter", "good friday", "palm sunday", "epiphany"]

/-- Heuristic mapping a festival name to a faith: lower-case the name and
test the three keyword regexes in order; empty string means unclassified. -/
def classifyFaith (name : String) : String :=
  if regexTest hinduKeys (jsToLower name) then "hindu"
  else if regexTest muslimKeys (jsToLower name) then "muslim"
  else if regexTest christianKeys (jsToLower name) then "christian"
  else ""

/-- Normalized holiday record as produced by the Calendarific adapter. -/
structure Item where
  name : String
  description : String
  type : List String
  primary_type : String
deriving DecidableEq

/-- The fixed allow-list of major festival names (isMajorFestival). -/
def allowList : List String :=
  ["diwali", "deepavali", "navratri", "holi", "dussehra", "vijayadashami",
   "janmashtami", "krishna janmashtami", "ram navami", "ganesh chaturthi",
   "maha shivaratri", "mahashivratri", "pongal", "makar sankranti", "onam",
   "raksha bandhan", "karva chauth", "karwa chauth",
   "eid al-fitr", "eid-ul-fitr", "eid al adha", "eid-ul-adha", "eid al-adha",
   "eid-e-milad", "milad-un-nabi", "mawlid an-nabi", "ashura", "muharram",
   "shab-e-barat",
   "christmas", "good friday", "easter", "palm sunday"]

/-- Model of the JS Array.prototype.join with separator a single space. -/
def joinWithSpace : List String → String
  | [] => ""
  | [s] => s
  | s :: r :: rest => s ++ " " ++ joinWithSpace (r :: rest)

/-- Filter for smaller observances: keep an item when its lower-cased name
contains an allow-listed substring, or its primary type mentions religion
while the type tags do not mention observance, or the type tags mention a
national holiday; otherwise reject (conservative default). -/
def isMajorFestival (item : Item) : Bool :=
  if regexTest allowList (jsToLower item.name) then true
  else if strHasSub "relig" (jsToLower item.primary_type)
          && !(strHasSub "observance" (jsToLower (joinWithSpace item.type))) then true
  else if strHasSub "national holiday" (jsToLower (joinWithSpace item.type)) then true
  else false

theorem isMajorFestival_eq_or (item : Item) :
    isMajorFestival item =
      (regexTest allowList (jsToLower item.name)
        || (strHasSub "relig" (jsToLower item.primary_type)
             && !(strHasSub "observance" (jsToLower (joinWithSpace item.type))))
        || strHasSub "national holiday" (jsToLower (joinWithSpace item.type))) := by
  unfold isMajorFestival
  generalize regexTest allowList (jsToLower item.name) = a
  generalize strHasSub "relig" (jsToLower item.primary_type) = b
  generalize strHasSub "observance" (jsToLower (joinWithSpace item.type)) = c
  generalize strHasSub "national holiday" (jsToLower (joinWithSpace item.type)) = d
  cases a <;> cases b <;> cases c <;> cases d <;> rfl

theorem hindu_ne_muslim : ("hindu" : String) ≠ "muslim" := by decide

theorem hindu_ne_christian : ("hindu" : String) ≠ "christian" := by decide

theorem muslim_ne_christian : ("muslim" : String) ≠ "christian" := by decide

theorem hindu_ne_empty : ("hindu" : String) ≠ "" := by decide

theorem muslim_ne_empty : ("muslim" : String) ≠ "" := by decide

theorem christian_ne_empty : ("christian" : String) ≠ "" := by decide

/-- Claim C4: isMajorFestival returns true exactly when the lower-cased name
contains an allow-listed substring, or the primary-type field mentions a
religious classification while the joined type tags do not mention an
observance, or the joined type tags mention a national holiday; an event with
none of these signals yields false. -/
theorem isMajor_characterization (item : Item) :
    isMajorFestival item = true ↔
      ((∃ k, k ∈ allowList ∧ ContainsSub k (jsToLower item.name))
        ∨ (ContainsSub "relig" (jsToLower item.primary_type)
            ∧ ¬ ContainsSub "observance" (jsToLower (joinWithSpace item.type)))
        ∨ ContainsSub "national holiday" (jsToLower (joinWithSpace item.type))) := by
  rw [isMajorFestival_eq_or]
  simp only [Bool.or_eq_true, Bool.and_eq_true, Bool.not_eq_true']
  rw [regexTest_iff, strHasSub_iff, strHasSub_iff, strHasSub_eq_false_iff]
  exact or_assoc

/-- Witness for C4 at a concrete event record. -/
theorem isMajor_characterization_witness :
    isMajorFestival ⟨"Diwali", "", [], ""⟩ = true ↔
      ((∃ k, k ∈ allowList ∧ ContainsSub k (jsToLower "Diwali"))
        ∨ (ContainsSub "relig" (jsToLower "")
            ∧ ¬ ContainsSub "observance" (jsToLower (joinWithSpace [])))
        ∨ ContainsSub "national holiday" (jsToLower (joinWithSpace []))) :=
  isMajor_characterization ⟨"Diwali", "", [], ""⟩

/-- Counterexample for C3 as stated: the name "Eid Diwali" matches the muslim
keyword set, yet classifyFaith returns "hindu" (the hindu regex is tested
first), not "muslim". -/
theorem classify_overlap_counterexample :
    KeyMatch muslimKeys "Eid Diwali" ∧ classifyFaith "Eid Diwali" ≠ "muslim" :=
  ⟨(regexTest_iff muslimKeys (jsToLower "Eid Diwali")).mp (by decide), by decide⟩

/-- Claim C3 (amended): classifyFaith lower-cases the name and tests it
against the three per-category keyword sets in the fixed order hindu, muslim,
christian, returning the first category whose keyword set matches; a name
matching no category's keyword set yields the empty result. -/
theorem classify_priority_order (name : String) :
    (classifyFaith name = "hindu" ↔ KeyMatch hinduKeys name) ∧
    (classifyFaith name = "muslim" ↔
      (¬ KeyMatch hinduKeys name ∧ KeyMatch muslimKeys name)) ∧
    (classifyFaith name = "christian" ↔
      (¬ KeyMatch hinduKeys name ∧ ¬ KeyMatch muslimKeys name
        ∧ KeyMatch christianKeys name)) ∧
    (classifyFaith name = "" ↔
      (¬ KeyMatch hinduKeys name ∧ ¬ KeyMatch muslimKeys name
        ∧ ¬ KeyMatch christianKeys name)) := by
  have hH : regexTest hinduKeys (jsToLower name) = true ↔ KeyMatch hinduKeys name :=
    regexTest_iff hinduKeys (jsToLower name)
  have hM : regexTest muslimKeys (jsToLower name) = true ↔ KeyMatch muslimKeys name :=
    regexTest_iff muslimKeys (jsToLower name)
  have hC : regexTest christianKeys (jsToLower name) = true ↔ KeyMatch christianKeys name :=
    regexTest_iff christianKeys (jsToLower name)
  rw [← hH, ← hM, ← hC]
  unfold classifyFaith
  cases hh : regexTest hinduKeys (jsToLower name) <;>
    cases hm : regexTest muslimKeys (jsToLower name) <;>
      cases hc : regexTest christianKeys (jsToLower name) <;>
        simp [hh, hm, hc, hindu_ne_muslim, hindu_ne_christian, hindu_ne_empty,
          muslim_ne_christian, muslim_ne_empty, christian_ne_empty,
          Ne.symm hindu_ne_muslim, Ne.symm hindu_ne_christian,
          Ne.symm hindu_ne_empty, Ne.symm muslim_ne_christian,
          Ne.symm muslim_ne_empty, Ne.symm christian_ne_empty]

/-- Witness for the amended C3 at a concrete name. -/
theorem classify_priority_order_witness :
    classifyFaith "Diwali" = "hindu" ↔ KeyMatch hinduKeys "Diwali" :=
  (classify_priority_order "Diwali").1

/-- The per-day generation cache: a flat mapping from composite keys to
generated strings (wish text or image URL). -/
abbrev WishCache := List (String × String)

/-- Composite cache key: date, a separator bar, and a label. -/
def cacheKey (dateISO label : String) : String := dateISO ++ "|" ++ label

/-- Raw cache lookup. -/
def cacheGet (c : WishCache) (k : String) : Option String :=
  (c.find? (fun e => e.1 == k)).map (fun e => e.2)

/-- Cache write: the JS object assignment overwrites the key; modelled by
prepending, with lookups returning the most recent binding. -/
def cacheSet (c : WishCache) (k v : String) : WishCache := (k, v) :: c

/-- Cache lookup as the JS code consumes it: a hit only when the stored
value is truthy (a nonempty string). -/
def truthyGet (c : WishCache) (k : String) : Option String :=
  match cacheGet c k with
  | some v => if truthyStr v then some v else none
  | none => none

/-- The fixed fallback wish template (source line 157). -/
def fallbackWish (name : String) : String :=
  "✨ " ++ name ++ " ki hardik shubhkamnayein! Dil mein khushi, ghar mein barkat aur sabke liye sehat-sukoon bane rahe. Aaj ke din hum sab milkar positivity, pyaar aur unity ko celebrate karein. 🌟"

/-- Validation of the text provider output: trim it, and accept it only when
it is truthy and at least 220 characters long; the absent case covers a
thrown exception or a missing response field. -/
def acceptedOf (provider : Option String) : Option String :=
  match provider with
  | none => none
  | some raw =>
    if truthyStr (jsTrim raw) && decide (220 ≤ (jsTrim raw).data.length)
    then some (jsTrim raw) else none

/-- Result of one call to the wish generator: the produced text, the cache
afterwards, and whether the text provider was invoked. -/
structure WishOut where
  text : String
  cache : WishCache
  called : Bool
deriving DecidableEq

/-- The wish generator: consult the per-day cache first; on a miss, call the
provider when configured and accept a long-enough result, caching it; in
every other case cache and return the fixed fallback template. -/
def makeAIWish (hasGenAI : Bool) (provider : Option String) (c : WishCache)
    (dateISO name : String) : WishOut :=
  match truthyGet c (cacheKey dateISO ("wish:" ++ name)) with
  | some v => ⟨v, c, false⟩
  | none =>
    if hasGenAI then
      match acceptedOf provider with
      | some text =>
        ⟨text, cacheSet c (cacheKey dateISO ("wish:" ++ name)) text, true⟩
      | none =>
        ⟨fallbackWish name,
          cacheSet c (cacheKey dateISO ("wish:" ++ name)) (fallbackWish name), true⟩
    else
      ⟨fallbackWish name,
        cacheSet c (cacheKey dateISO ("wish:" ++ name)) (fallbackWish name), false⟩

theorem truthyStr_fallbackWish (name : String) :
    truthyStr (fallbackWish name) = true := by
  cases name with
  | mk l => rfl

theorem acceptedOf_truthy (p : Option String) (text : String)
    (h : acceptedOf p = some text) : truthyStr text = true := by
  cases p with
  | none => exact absurd h (by simp [acceptedOf])
  | some raw =>
    simp only [acceptedOf] at h
    split at h
    · rename_i hcond
      injection h with h2
      rw [← h2]
      exact ((Bool.and_eq_true _ _).mp hcond).1
    · exact absurd h (by simp)

theorem truthyGet_cacheSet_self (c : WishCache) (k v : String)
    (hv : truthyStr v = true) : truthyGet (cacheSet c k v) k = some v := by
  unfold truthyGet cacheGet cacheSet
  rw [List.find?_cons_of_pos _ (by simp)]
  simp [hv]

theorem makeAIWish_writes (g1 : Bool) (p1 : Option String) (c : WishCache)
    (d n : String) (hmiss : truthyGet c (cacheKey d ("wish:" ++ n)) = none) :
    (makeAIWish g1 p1 c d n).cache
      = cacheSet c (cacheKey d ("wish:" ++ n)) ((makeAIWish g1 p1 c d n).text) ∧
    truthyStr ((makeAIWish g1 p1 c d n).text) = true := by
  cases g1 with
  | false =>
    simp only [makeAIWish, hmiss]
    exact ⟨rfl, truthyStr_fallbackWish n⟩
  | true =>
    cases hacc : acceptedOf p1 with
    | none =>
      simp only [makeAIWish, hmiss, hacc]
      exact ⟨rfl, truthyStr_fallbackWish n⟩
    | some w =>
      simp only [makeAIWish, hmiss, hacc]
      exact ⟨rfl, acceptedOf_truthy p1 w hacc⟩

/-- Claim C2: when the provider fails or its output is rejected on the first
call for a (date, name) pair, the fixed fallback template is written into the
cache under that key, and every subsequent call with the same (date, name)
returns that cached fallback — whatever the provider would do now — without
invoking the provider. -/
theorem fallback_pinning (hasGenAI : Bool) (p1 : Option String) (c : WishCache)
    (d n : String) (hmiss : truthyGet c (cacheKey d ("wish:" ++ n)) = none)
    (hfail : acceptedOf p1 = none) :
    (makeAIWish hasGenAI p1 c d n).text = fallbackWish n ∧
    (makeAIWish hasGenAI p1 c d n).cache
      = cacheSet c (cacheKey d ("wish:" ++ n)) (fallbackWish n) ∧
    ∀ g2 p2,
      (makeAIWish g2 p2 (makeAIWish hasGenAI p1 c d n).cache d n).text
          = fallbackWish n ∧
      (makeAIWish g2 p2 (makeAIWish hasGenAI p1 c d n).cache d n).called = false := by
  have h1 : makeAIWish hasGenAI p1 c d n
      = ⟨fallbackWish n,
          cacheSet c (cacheKey d ("wish:" ++ n)) (fallbackWish n), hasGenAI⟩ := by
    cases hasGenAI <;> simp only [makeAIWish, hmiss, hfail] <;> rfl
  have h3 : ∀ g2 p2,
      makeAIWish g2 p2 (cacheSet c (cacheKey d ("wish:" ++ n)) (fallbackWish n)) d n
        = ⟨fallbackWish n,
            cacheSet c (cacheKey d ("wish:" ++ n)) (fallbackWish n), false⟩ := by
    intro g2 p2
    unfold makeAIWish
    rw [truthyGet_cacheSet_self _ _ _ (truthyStr_fallbackWish n)]
  refine ⟨by rw [h1], by rw [h1], ?_⟩
  intro g2 p2
  simp only [h1]
  rw [h3 g2 p2]
  exact ⟨rfl, rfl⟩

/-- Witness for C2: with an empty cache and a failing provider, the first
call produces the fallback and a second call (with a provider answer that
would now be accepted) still returns the pinned fallback. -/
theorem fallback_pinning_witness :
    (makeAIWish true none [] "2025-01-01" "Diwali").text = fallbackWish "Diwali" ∧
    (makeAIWish true (some ⟨List.replicate 240 'a'⟩)
        (makeAIWish true none [] "2025-01-01" "Diwali").cache
        "2025-01-01" "Diwali").text = fallbackWish "Diwali" ∧
    (makeAIWish true (some ⟨List.replicate 240 'a'⟩)
        (makeAIWish true none [] "2025-01-01" "Diwali").cache
        "2025-01-01" "Diwali").called = false :=
  ⟨(fallback_pinning true none [] "2025-01-01" "Diwali" rfl rfl).1,
   ((fallback_pinning true none [] "2025-01-01" "Diwali" rfl rfl).2.2
      true (some ⟨List.replicate 240 'a'⟩)).1,
   ((fallback_pinning true none [] "2025-01-01" "Diwali" rfl rfl).2.2
      true (some ⟨List.replicate 240 'a'⟩)).2⟩

/-- Claim C5: after the first call for a (date, name) pair has written its
value to the cache, any later call with the identical pair returns the same
string and does not invoke the provider. -/
theorem wish_cache_idempotent (g1 g2 : Bool) (p1 p2 : Option String)
    (c : WishCache) (d n : String)
    (hmiss : truthyGet c (cacheKey d ("wish:" ++ n)) = none) :
    (makeAIWish g2 p2 (makeAIWish g1 p1 c d n).cache d n).text
      = (makeAIWish g1 p1 c d n).text ∧
    (makeAIWish g2 p2 (makeAIWish g1 p1 c d n).cache d n).called = false := by
  obtain ⟨hc, ht⟩ := makeAIWish_writes g1 p1 c d n hmiss
  set r1 := makeAIWish g1 p1 c d n with hr1
  have h2 : truthyGet r1.cache (cacheKey d ("wish:" ++ n)) = some r1.text := by
    rw [hc]
    exact truthyGet_cacheSet_self _ _ _ ht
  have h3 : makeAIWish g2 p2 r1.cache d n = ⟨r1.text, r1.cache, false⟩ := by
    unfold makeAIWish
    rw [h2]
  rw [h3]
  exact ⟨rfl, rfl⟩

/-- Witness for C5: a successful first call at a concrete input, then a
second call returning the identical text without a provider invocation. -/
theorem wish_cache_idempotent_witness :
    (makeAIWish true (some ⟨List.replicate 230 'b'⟩)
        (makeAIWish true (some ⟨List.replicate 230 'b'⟩) [] "2025-01-01" "Holi").cache
        "2025-01-01" "Holi").text
      = (makeAIWish true (some ⟨List.replicate 230 'b'⟩) [] "2025-01-01" "Holi").text ∧
    (makeAIWish true (some ⟨List.replicate 230 'b'⟩)
        (makeAIWish true (some ⟨List.replicate 230 'b'⟩) [] "2025-01-01" "Holi").cache
        "2025-01-01" "Holi").called = false :=
  wish_cache_idempotent true true (some ⟨List.replicate 230 'b'⟩)
    (some ⟨List.replicate 230 'b'⟩) [] "2025-01-01" "Holi" rfl

/-- A photo object of the image-search response: dimensions and URL variants. -/
structure Photo where
  width : Nat
  height : Nat
  srcLandscape : Option String
  srcLarge : Option String
deriving DecidableEq

/-- URL selection from a picked photo: the landscape variant when truthy,
else the large variant when truthy, else the empty string. -/
def pickUrl (p : Photo) : String :=
  if truthyStr (p.srcLandscape.getD "") then p.srcLandscape.getD ""
  else if truthyStr (p.srcLarge.getD "") then p.srcLarge.getD ""
  else ""

/-- Page size requested from the image-search provider (per_page). -/
def pexelsPerPage : Nat := 10

/-- Image search call: absent key yields empty; the response oracle is
parameterized by the requested page size; an absent response models a thrown
or malformed reply; otherwise prefer the first candidate whose width is at
least its height, else the first candidate, else empty. -/
def fetchPexelsImage (hasKey : Bool) (resp : Nat → Option (List Photo)) : String :=
  if !hasKey then ""
  else
    match resp pexelsPerPage with
    | none => ""
    | some photos =>
      match photos with
      | [] => ""
      | p :: ps =>
        pickUrl ((List.find? (fun q => decide (q.height ≤ q.width)) (p :: ps)).getD p)

/-- The category-specific image query templates (queryForImage). -/
def queryTemplates (name faith : String) : List String :=
  if faith == "hindu" then
    [name ++ " celebration India", "diya lamps festival lights bokeh",
     "rangoli festive decor"]
  else if faith == "muslim" then
    [name ++ " celebration crescent moon mosque lights",
     "eid lanterns (fanous) night sky", "henna hands festive lights"]
  else if faith == "christian" then
    [name ++ " celebration church lights",
     "christmas tree warm lights ornaments", "candles star nativity festive"]
  else [name ++ " festival India celebration"]

/-- Query selection: the random draw of Math.floor(Math.random()*len) is
modelled by an oracle index reduced modulo the template count. -/
def queryForImage (name faith : String) (r : Nat) : String :=
  (queryTemplates name faith).getD (r % (queryTemplates name faith).length) ""

/-- Result of one getFestivalImage call. -/
structure ImgOut where
  url : String
  cache : WishCache
deriving DecidableEq

/-- The image adapter: consult the per-day cache first; on a miss build a
query, call the image provider, and cache the result only when nonempty. -/
def getFestivalImage (imageProvider : String) (hasKey : Bool)
    (resp : String → Nat → Option (List Photo)) (r : Nat) (c : WishCache)
    (dateISO name faith : String) : ImgOut :=
  match truthyGet c (cacheKey dateISO ("img:" ++ name)) with
  | some v => ⟨v, c⟩
  | none =>
    if truthyStr (if imageProvider == "pexels"
        then fetchPexelsImage hasKey (resp (queryForImage name faith r)) else "") then
      ⟨(if imageProvider == "pexels"
          then fetchPexelsImage hasKey (resp (queryForImage name faith r)) else ""),
        cacheSet c (cacheKey dateISO ("img:" ++ name))
          (if imageProvider == "pexels"
            then fetchPexelsImage hasKey (resp (queryForImage name faith r)) else "")⟩
    else
      ⟨(if imageProvider == "pexels"
          then fetchPexelsImage hasKey (resp (queryForImage name faith r)) else ""), c⟩

theorem queryTemplates_ne_nil (name faith : String) :
    queryTemplates name faith ≠ [] := by
  unfold queryTemplates
  split
  · simp
  · split
    · simp
    · split <;> simp

theorem queryForImage_mem (name faith : String) (r : Nat) :
    queryForImage name faith r ∈ queryTemplates name faith := by
  unfold queryForImage
  have hlen : 0 < (queryTemplates name faith).length :=
    List.length_pos.mpr (queryTemplates_ne_nil name faith)
  have hlt : r % (queryTemplates name faith).length
      < (queryTemplates name faith).length := Nat.mod_lt r hlen
  rw [List.getD_eq_getElem _ _ hlt]
  exact List.getElem_mem hlt

theorem getFestivalImage_miss (hasKey : Bool)
    (resp : String → Nat → Option (List Photo)) (r : Nat) (c : WishCache)
    (d n faith : String) (hmiss : truthyGet c (cacheKey d ("img:" ++ n)) = none) :
    getFestivalImage "pexels" hasKey resp r c d n faith =
      (if truthyStr (fetchPexelsImage hasKey (resp (queryForImage n faith r))) then
        ⟨fetchPexelsImage hasKey (resp (queryForImage n faith r)),
          cacheSet c (cacheKey d ("img:" ++ n))
            (fetchPexelsImage hasKey (resp (queryForImage n faith r)))⟩
      else ⟨fetchPexelsImage hasKey (resp (queryForImage n faith r)), c⟩) := by
  unfold getFestivalImage
  rw [hmiss]
  simp only [beq_self_eq_true, if_true]

/-- Claim C6: on a cache miss, getFestivalImage draws one of the
category-specific query templates (the random draw is an oracle index, every
template being reachable), forwards it to the image-search call with page
size 10, whose result prefers the first landscape candidate, else the first
candidate, else empty, with provider errors yielding empty; only a nonempty
result is written back to the cache, an empty one leaving it unchanged. -/
theorem festival_image_spec (hasKey : Bool)
    (resp : String → Nat → Option (List Photo)) (r : Nat) (c : WishCache)
    (d n faith : String) (hmiss : truthyGet c (cacheKey d ("img:" ++ n)) = none) :
    queryForImage n faith r ∈ queryTemplates n faith ∧
    (∀ i, i < (queryTemplates n faith).length →
      ∃ r2, queryForImage n faith r2 = (queryTemplates n faith).getD i "") ∧
    (getFestivalImage "pexels" hasKey resp r c d n faith).url
      = fetchPexelsImage hasKey (resp (queryForImage n faith r)) ∧
    (resp (queryForImage n faith r) pexelsPerPage = none →
      (getFestivalImage "pexels" hasKey resp r c d n faith).url = "") ∧
    (∀ p ps, resp (queryForImage n faith r) pexelsPerPage = some (p :: ps) →
      hasKey = true →
      (getFestivalImage "pexels" hasKey resp r c d n faith).url
        = pickUrl ((List.find? (fun q => decide (q.height ≤ q.width)) (p :: ps)).getD p)) ∧
    (resp (queryForImage n faith r) pexelsPerPage = some [] →
      (getFestivalImage "pexels" hasKey resp r c d n faith).url = "") ∧
    ((getFestivalImage "pexels" hasKey resp r c d n faith).url = "" →
      (getFestivalImage "pexels" hasKey resp r c d n faith).cache = c) ∧
    (¬ (getFestivalImage "pexels" hasKey resp r c d n faith).url = "" →
      (getFestivalImage "pexels" hasKey resp r c d n faith).cache
        = cacheSet c (cacheKey d ("img:" ++ n))
            ((getFestivalImage "pexels" hasKey resp r c d n faith).url)) := by
  have hmeq := getFestivalImage_miss hasKey resp r c d n faith hmiss
  have hurl : (getFestivalImage "pexels" hasKey resp r c d n faith).url
      = fetchPexelsImage hasKey (resp (queryForImage n faith r)) := by
    rw [hmeq]
    split <;> rfl
  refine ⟨queryForImage_mem n faith r, ?_, hurl, ?_, ?_, ?_, ?_, ?_⟩
  · intro i hi
    refine ⟨i, ?_⟩
    unfold queryForImage
    rw [Nat.mod_eq_of_lt hi]
  · intro h
    rw [hurl]
    unfold fetchPexelsImage
    rw [h]
    cases hasKey <;> rfl
  · intro p ps h hk
    subst hk
    rw [hurl]
    unfold fetchPexelsImage
    rw [h]
    rfl
  · intro h
    rw [hurl]
    unfold fetchPexelsImage
    rw [h]
    cases hasKey <;> rfl
  · intro h0
    have hu : fetchPexelsImage hasKey (resp (queryForImage n faith r)) = "" := by
      rw [← hurl]
      exact h0
    rw [hmeq, hu]
    rfl
  · intro h0
    have hne : ¬ fetchPexelsImage hasKey (resp (queryForImage n faith r)) = "" := by
      intro he
      exact h0 (by rw [hurl, he])
    have hu := (truthyStr_iff _).mpr hne
    rw [hurl, hmeq, if_pos hu]

/-- Witness for C6 at a concrete miss with one landscape candidate. -/
theorem festival_image_spec_witness :
    queryForImage "Diwali" "hindu" 0 ∈ queryTemplates "Diwali" "hindu" ∧
    (getFestivalImage "pexels" true
        (fun _ _ => some [(⟨300, 200, some "urlL", none⟩ : Photo)])
        0 [] "2025-01-01" "Diwali" "hindu").url
      = fetchPexelsImage true
          ((fun _ _ => some [(⟨300, 200, some "urlL", none⟩ : Photo)])
            (queryForImage "Diwali" "hindu" 0)) :=
  ⟨(festival_image_spec true
      (fun _ _ => some [(⟨300, 200, some "urlL", none⟩ : Photo)])
      0 [] "2025-01-01" "Diwali" "hindu" rfl).1,
   (festival_image_spec true
      (fun _ _ => some [(⟨300, 200, some "urlL", none⟩ : Photo)])
      0 [] "2025-01-01" "Diwali" "hindu" rfl).2.2.1⟩

/-- Fully populated per-guild settings record. -/
structure Cfg where
  channelId : Option String
  lang : String
  religions : List String
  mention : String
  majorOnly : Bool
deriving DecidableEq

/-- A possibly partial stored settings record, as a JSON file may contain
only some of the fields; absent fields fall back to the defaults when read
through the spread-with-defaults idiom. -/
structure PartialCfg where
  channelId : Option (Option String)
  lang : Option String
  religions : Option (List String)
  mention : Option String
  majorOnly : Option Bool
deriving DecidableEq

/-- The default settings record (defaultsFor). -/
def defaultsFor : Cfg := ⟨none, "hinglish", ["hindu", "muslim", "christian"], "everyone", true⟩

/-- View a full record as a stored record with every field present. -/
def toPartial (c : Cfg) : PartialCfg :=
  ⟨some c.channelId, some c.lang, some c.religions, some c.mention, some c.majorOnly⟩

/-- The JS spread { ...defaultsFor(), ...stored } read idiom. -/
def mergeDefaults (p : Option PartialCfg) : Cfg :=
  match p with
  | none => defaultsFor
  | some q =>
    ⟨q.channelId.getD defaultsFor.channelId, q.lang.getD defaultsFor.lang,
      q.religions.getD defaultsFor.religions, q.mention.getD defaultsFor.mention,
      q.majorOnly.getD defaultsFor.majorOnly⟩

/-- The in-memory guildConfigs mapping, keyed by guild id. -/
abbrev GuildMap := List (String × PartialCfg)

def getEntry (m : GuildMap) (gid : String) : Option PartialCfg :=
  (m.find? (fun e => e.1 == gid)).map (fun e => e.2)

/-- JS object property assignment on the guildConfigs mapping. -/
def setEntry (m : GuildMap) (gid : String) (p : PartialCfg) : GuildMap :=
  (gid, p) :: m.filter (fun e => e.1 != gid)

/-- The observable settings of a destination: defaults merged with whatever
is stored for it. -/
def effective (m : GuildMap) (gid : String) : Cfg := mergeDefaults (getEntry m gid)

/-- The guildConfigs[gid] = { ...defaultsFor(), ...(guildConfigs[gid] || {}) }
normalization performed at the top of the interaction handler. -/
def normalizeEntry (m : GuildMap) (gid : String) : GuildMap :=
  setEntry m gid (toPartial (effective m gid))

def updateEntry (m : GuildMap) (gid : String) (f : PartialCfg → PartialCfg) : GuildMap :=
  setEntry m gid (f ((getEntry m gid).getD (toPartial defaultsFor)))

/-- Discord channel as far as the bot observes it. -/
structure Channel where
  id : String
  type : Nat
  name : String
deriving DecidableEq

/-- A guild with its channel cache. -/
structure Guild where
  id : String
  channels : List Channel
deriving DecidableEq

/-- ChannelType.GuildText in the messaging SDK. -/
def guildTextType : Nat := 0

/-- ChannelType.PublicThread in the messaging SDK. -/
def publicThreadType : Nat := 11

/-- ChannelType.PrivateThread in the messaging SDK. -/
def privateThreadType : Nat := 12

/-- Resolve a configured channel id to a usable channel: present, fetchable
and of plain guild-text type; anything else resolves to nothing. -/
def resolveChannel (g : Guild) (channelId : Option String) : Option Channel :=
  match channelId with
  | none => none
  | some cid =>
    match g.channels.find? (fun c => c.id == cid) with
    | none => none
    | some ch => if ch.type == guildTextType then some ch else none

/-- Fallback channel discovery: the first cached guild-text channel whose
lower-cased name is announcements or general. -/
def fallbackChannel (g : Guild) : Option Channel :=
  g.channels.find? (fun c =>
    c.type == guildTextType
      && (jsToLower c.name == "announcements" || jsToLower c.name == "general"))

/-- The per-event filter of the daily run: keep an event when its classified
faith is truthy and enabled for the destination, and it passes the
major-only filter when that is switched on. -/
def keepEvent (cfg : Cfg) (f : Item) : Bool :=
  (if truthyStr (classifyFaith f.name) then cfg.religions.contains (classifyFaith f.name)
   else false)
  && (if cfg.majorOnly then isMajorFestival f else true)

/-- Outcome of the per-guild step of the daily run. -/
structure GuildOut where
  configs : GuildMap
  saved : Bool
  chan : Option Channel
  festivals : List Item
deriving DecidableEq

/-- The per-guild body of runDaily: read settings merged with defaults,
filter the shared event list, skip when empty, resolve the destination
channel (configured, else by-name fallback), skip when none, otherwise
deliver and persist the merged settings record for the guild. -/
def processGuild (m : GuildMap) (g : Guild) (raw : List Item) : GuildOut :=
  if (raw.filter (keepEvent (effective m g.id))).isEmpty then
    ⟨m, false, none, raw.filter (keepEvent (effective m g.id))⟩
  else
    match (resolveChannel g (effective m g.id).channelId).orElse
        (fun _ => fallbackChannel g) with
    | none => ⟨m, false, none, raw.filter (keepEvent (effective m g.id))⟩
    | some ch =>
      ⟨setEntry m g.id (toPartial (effective m g.id)), true, some ch,
        raw.filter (keepEvent (effective m g.id))⟩

/-- The closed category vocabulary of the setreligions command. -/
def allowedReligions : List String := ["hindu", "muslim", "christian"]

/-- Split a char list at separator characters, keeping empty pieces, as the
JS String.split does around a separator regex. -/
def splitOnPred (p : Char → Bool) (l : List Char) : List (List Char) :=
  l.foldr (fun ch acc =>
    if p ch then [] :: acc
    else match acc with
      | [] => [[ch]]
      | h :: t => (ch :: h) :: t) [[]]

/-- The setreligions input parser: lower-case, split on commas/whitespace,
trim, and keep only members of the closed vocabulary. -/
def parseReligions (raw : String) : List String :=
  (((splitOnPred (fun ch => ch == ',' || ch.isWhitespace) (jsToLower raw).data).map
      (fun cs => jsTrim ⟨cs⟩)).filter (fun s => allowedReligions.contains s))

/-- First-occurrence deduplication, as the JS [...new Set(xs)] idiom. -/
def jsSetDedup (seen : List String) : List String → List String
  | [] => []
  | x :: xs =>
    if seen.contains x then jsSetDedup seen xs
    else x :: jsSetDedup (x :: seen) xs

/-- The four slash commands with their already-extracted option values. -/
inductive BotCommand where
  | setWishesChannel (channelId : String) (channelType : Nat)
  | setReligions (raw : String)
  | setMention (raw : String)
  | setMajor (b : Bool)
deriving DecidableEq

/-- Outcome of one interaction: the guildConfigs map afterwards, whether
saveConfigs ran, and the reply text. -/
structure HandleOut where
  configs : GuildMap
  saved : Bool
  reply : String
deriving DecidableEq

/-- The InteractionCreate handler: normalize the entry for the guild, then
dispatch on the command, validating input before mutating and saving. -/
def handleCommand (m : GuildMap) (gid : String) (cmd : BotCommand) : HandleOut :=
  match cmd with
  | BotCommand.setWishesChannel cid ty =>
    if ty == guildTextType || ty == publicThreadType || ty == privateThreadType then
      ⟨updateEntry (normalizeEntry m gid) gid
          (fun p => { p with channelId := some (some cid) }), true,
        "✅ Will post in <#" ++ cid ++ "> daily at **01:00 Asia/Kolkata**."⟩
    else ⟨normalizeEntry m gid, false, "Please choose a text channel."⟩
  | BotCommand.setReligions raw =>
    if (parseReligions raw).isEmpty then
      ⟨normalizeEntry m gid, false, "Use any of: hindu, muslim, christian"⟩
    else
      ⟨updateEntry (normalizeEntry m gid) gid
          (fun p => { p with religions := some (jsSetDedup [] (parseReligions raw)) }),
        true,
        "✅ Religions: " ++ String.intercalate ", " (jsSetDedup [] (parseReligions raw))⟩
  | BotCommand.setMention raw =>
    if jsToLower raw == "everyone" || jsToLower raw == "here"
        || jsToLower raw == "none" then
      ⟨updateEntry (normalizeEntry m gid) gid
          (fun p => { p with mention := some (jsToLower raw) }), true,
        "✅ Mention: " ++ jsToLower raw⟩
    else ⟨normalizeEntry m gid, false, "Choose: everyone | here | none"⟩
  | BotCommand.setMajor b =>
    ⟨updateEntry (normalizeEntry m gid) gid
        (fun p => { p with majorOnly := some b }), true,
      "✅ Major-only filter: " ++ (if b then "ON" else "OFF")⟩

theorem getEntry_setEntry_self (m : GuildMap) (gid : String) (p : PartialCfg) :
    getEntry (setEntry m gid p) gid = some p := by
  unfold getEntry setEntry
  rw [List.find?_cons_of_pos _ (by simp)]
  rfl

theorem find?_filter_ne (m : GuildMap) (gid g : String) (h : ¬ g = gid) :
    List.find? (fun e => e.1 == g) (m.filter (fun e => e.1 != gid))
      = List.find? (fun e => e.1 == g) m := by
  induction m with
  | nil => rfl
  | cons e t ih =>
    by_cases he : e.1 = gid
    · have h1 : (e.1 != gid) = false := by simp [he]
      have h2 : (e.1 == g) = false := by
        rw [he]
        exact beq_eq_false_iff_ne.mpr (fun hh => h hh.symm)
      rw [List.filter_cons_of_neg (by simp [h1]), List.find?_cons_of_neg _ (by simp [h2])]
      exact ih
    · have h1 : (e.1 != gid) = true := by simp [he]
      rw [List.filter_cons_of_pos (by rw [h1])]
      cases hp : (e.1 == g) with
      | true =>
        rw [List.find?_cons_of_pos _ (by rw [hp]), List.find?_cons_of_pos _ (by rw [hp])]
      | false =>
        rw [List.find?_cons_of_neg _ (by simp [hp]), List.find?_cons_of_neg _ (by simp [hp])]
        exact ih

theorem getEntry_setEntry_ne (m : GuildMap) (gid g : String) (p : PartialCfg)
    (h : ¬ g = gid) : getEntry (setEntry m gid p) g = getEntry m g := by
  unfold getEntry setEntry
  rw [List.find?_cons_of_neg _ (by simp; exact fun hh => h hh.symm),
    find?_filter_ne m gid g h]

theorem mergeDefaults_toPartial (c : Cfg) :
    mergeDefaults (some (toPartial c)) = c := by
  cases c
  rfl

theorem effective_normalizeEntry (m : GuildMap) (gid g : String) :
    effective (normalizeEntry m gid) g = effective m g := by
  by_cases hg : g = gid
  · subst hg
    unfold normalizeEntry
    unfold effective
    rw [getEntry_setEntry_self]
    exact mergeDefaults_toPartial (mergeDefaults (getEntry m g))
  · unfold normalizeEntry effective
    rw [getEntry_setEntry_ne m gid g _ hg]

theorem keepEvent_iff (cfg : Cfg) (f : Item) :
    keepEvent cfg f = true ↔
      (¬ classifyFaith f.name = "" ∧ classifyFaith f.name ∈ cfg.religions
        ∧ (cfg.majorOnly = false ∨ isMajorFestival f = true)) := by
  unfold keepEvent
  cases ht : truthyStr (classifyFaith f.name) with
  | false =>
    have he := (truthyStr_eq_false_iff _).mp ht
    cases hm : cfg.majorOnly <;> simp [he]
  | true =>
    have he := (truthyStr_iff _).mp ht
    cases hm : cfg.majorOnly <;>
      cases hj : isMajorFestival f <;>
        simp [ht, he, hj, List.contains]

/-- Claim C1: the daily run keeps an event for a destination exactly when
classify of its name is present, that faith is in the destination's enabled
set, and majorOnly is off or isMajorFestival holds; in particular a
destination enabling only hindu excludes muslim, christian and unclassified
events regardless of majorOnly. -/
theorem filter_keeps_iff (cfg : Cfg) (f : Item) (raw : List Item) :
    (f ∈ raw.filter (keepEvent cfg) ↔
      (f ∈ raw ∧ ¬ classifyFaith f.name = "" ∧ classifyFaith f.name ∈ cfg.religions
        ∧ (cfg.majorOnly = false ∨ isMajorFestival f = true))) ∧
    (cfg.religions = ["hindu"] →
      (classifyFaith f.name = "muslim" ∨ classifyFaith f.name = "christian"
        ∨ classifyFaith f.name = "") →
      keepEvent cfg f = false) := by
  constructor
  · rw [List.mem_filter, keepEvent_iff]
  · intro hr hf
    cases hk : keepEvent cfg f with
    | false => rfl
    | true =>
      obtain ⟨hne, hmem, _⟩ := (keepEvent_iff cfg f).mp hk
      rw [hr] at hmem
      rcases hf with hf | hf | hf
      · rw [hf] at hmem
        exact absurd (List.mem_singleton.mp hmem) (by decide)
      · rw [hf] at hmem
        exact absurd (List.mem_singleton.mp hmem) (by decide)
      · exact absurd hf hne

/-- Witness for C1: a muslim-classified event is dropped by a destination
that enables only the hindu category. -/
theorem filter_keeps_iff_witness :
    keepEvent ⟨none, "hinglish", ["hindu"], "everyone", true⟩
      ⟨"Eid al-Fitr", "", [], ""⟩ = false :=
  (filter_keeps_iff ⟨none, "hinglish", ["hindu"], "everyone", true⟩
      ⟨"Eid al-Fitr", "", [], ""⟩ []).2 rfl (Or.inl (by decide))

/-- Claim C7: every configuration command whose input fails validation (a
channel of the wrong type, a category list with no vocabulary member, an
invalid mention value) sends the rejection reply, does not save, and leaves
the observable settings of every destination unchanged. -/
theorem command_validation_no_mutation (m : GuildMap) (gid : String) :
    (∀ cid ty, ¬ ty = guildTextType → ¬ ty = publicThreadType →
      ¬ ty = privateThreadType →
      (handleCommand m gid (BotCommand.setWishesChannel cid ty)).reply
          = "Please choose a text channel." ∧
      (handleCommand m gid (BotCommand.setWishesChannel cid ty)).saved = false ∧
      ∀ g, effective (handleCommand m gid (BotCommand.setWishesChannel cid ty)).configs g
          = effective m g) ∧
    (∀ raw, parseReligions raw = [] →
      (handleCommand m gid (BotCommand.setReligions raw)).reply
          = "Use any of: hindu, muslim, christian" ∧
      (handleCommand m gid (BotCommand.setReligions raw)).saved = false ∧
      ∀ g, effective (handleCommand m gid (BotCommand.setReligions raw)).configs g
          = effective m g) ∧
    (∀ raw, ¬ jsToLower raw = "everyone" → ¬ jsToLower raw = "here" →
      ¬ jsToLower raw = "none" →
      (handleCommand m gid (BotCommand.setMention raw)).reply
          = "Choose: everyone | here | none" ∧
      (handleCommand m gid (BotCommand.setMention raw)).saved = false ∧
      ∀ g, effective (handleCommand m gid (BotCommand.setMention raw)).configs g
          = effective m g) := by
  refine ⟨?_, ?_, ?_⟩
  · intro cid ty h0 h11 h12
    have hcond : (ty == guildTextType || ty == publicThreadType
        || ty == privateThreadType) = false := by
      simp [h0, h11, h12]
    have heq : handleCommand m gid (BotCommand.setWishesChannel cid ty)
        = ⟨normalizeEntry m gid, false, "Please choose a text channel."⟩ := by
      simp only [handleCommand]
      rw [hcond]
      rfl
    rw [heq]
    exact ⟨rfl, rfl, fun g => effective_normalizeEntry m gid g⟩
  · intro raw hraw
    have heq : handleCommand m gid (BotCommand.setReligions raw)
        = ⟨normalizeEntry m gid, false, "Use any of: hindu, muslim, christian"⟩ := by
      simp only [handleCommand]
      rw [hraw]
      rfl
    rw [heq]
    exact ⟨rfl, rfl, fun g => effective_normalizeEntry m gid g⟩
  · intro raw h0 h1 h2
    have hcond : (jsToLower raw == "everyone" || jsToLower raw == "here"
        || jsToLower raw == "none") = false := by
      simp [h0, h1, h2]
    have heq : handleCommand m gid (BotCommand.setMention raw)
        = ⟨normalizeEntry m gid, false, "Choose: everyone | here | none"⟩ := by
      simp only [handleCommand]
      rw [hcond]
      rfl
    rw [heq]
    exact ⟨rfl, rfl, fun g => effective_normalizeEntry m gid g⟩

/-- Witness for C7: a voice-typed channel (type 2) is rejected and the
observable settings are untouched. -/
theorem command_validation_no_mutation_witness :
    (handleCommand [] "g1" (BotCommand.setWishesChannel "c1" 2)).reply
        = "Please choose a text channel." ∧
    (handleCommand [] "g1" (BotCommand.setWishesChannel "c1" 2)).saved = false ∧
    effective (handleCommand [] "g1" (BotCommand.setWishesChannel "c1" 2)).configs "g1"
        = effective [] "g1" :=
  ⟨((command_validation_no_mutation [] "g1").1 "c1" 2 (by decide) (by decide) (by decide)).1,
   ((command_validation_no_mutation [] "g1").1 "c1" 2 (by decide) (by decide) (by decide)).2.1,
   ((command_validation_no_mutation [] "g1").1 "c1" 2 (by decide) (by decide) (by decide)).2.2 "g1"⟩

/-- The religions field of a list is inside the closed vocabulary. -/
def relOkList (l : List String) : Bool := l.all (fun r => allowedReligions.contains r)

/-- A stored record satisfies the vocabulary invariant (vacuously when the
religions field is absent). -/
def relOkEntry (p : PartialCfg) : Bool :=
  match p.religions with
  | some l => relOkList l
  | none => true

/-- Every stored record of the map satisfies the vocabulary invariant. -/
def mapInv (m : GuildMap) : Bool := m.all (fun e => relOkEntry e.2)

theorem parseReligions_relOk (raw : String) :
    relOkList (parseReligions raw) = true := by
  unfold relOkList parseReligions
  rw [List.all_eq_true]
  intro s hs
  exact (List.mem_filter.mp hs).2

theorem jsSetDedup_sub (l : List String) :
    ∀ seen x, x ∈ jsSetDedup seen l → x ∈ l := by
  induction l with
  | nil =>
    intro seen x hx
    exact absurd hx (by simp [jsSetDedup])
  | cons a t ih =>
    intro seen x hx
    unfold jsSetDedup at hx
    by_cases hc : (seen.contains a) = true
    · rw [if_pos hc] at hx
      exact List.mem_cons_of_mem a (ih seen x hx)
    · rw [if_neg hc] at hx
      rcases List.mem_cons.mp hx with h | h
      · exact h ▸ List.mem_cons_self a t
      · exact List.mem_cons_of_mem a (ih (a :: seen) x h)

theorem relOkList_sub (l l2 : List String) (h : ∀ x, x ∈ l2 → x ∈ l)
    (hl : relOkList l = true) : relOkList l2 = true := by
  unfold relOkList at hl ⊢
  rw [List.all_eq_true] at hl ⊢
  intro x hx
  exact hl x (h x hx)

theorem mapInv_entry (m : GuildMap) (gid : String) (p : PartialCfg)
    (hm : mapInv m = true) (hp : getEntry m gid = some p) :
    relOkEntry p = true := by
  unfold getEntry at hp
  unfold mapInv at hm
  rw [List.all_eq_true] at hm
  cases hf : m.find? (fun e => e.1 == gid) with
  | none =>
    rw [hf] at hp
    exact absurd hp (by simp)
  | some e =>
    rw [hf] at hp
    simp at hp
    rw [← hp]
    exact hm e (List.mem_of_find?_eq_some hf)

theorem mapInv_setEntry (m : GuildMap) (gid : String) (p : PartialCfg)
    (hm : mapInv m = true) (hp : relOkEntry p = true) :
    mapInv (setEntry m gid p) = true := by
  unfold mapInv setEntry
  rw [List.all_eq_true]
  intro e he
  rcases List.mem_cons.mp he with h | h
  · rw [h]
    exact hp
  · unfold mapInv at hm
    rw [List.all_eq_true] at hm
    exact hm e (List.mem_of_mem_filter h)

theorem relOkEntry_toPartial (c : Cfg) :
    relOkEntry (toPartial c) = relOkList c.religions := rfl

theorem relOkEntry_merged (m : GuildMap) (gid : String) (hm : mapInv m = true) :
    relOkEntry (toPartial (effective m gid)) = true := by
  rw [relOkEntry_toPartial]
  unfold effective
  cases hg : getEntry m gid with
  | none => decide
  | some q =>
    have hq := mapInv_entry m gid q hm hg
    rcases q with ⟨qc, ql, qr, qm, qmaj⟩
    cases qr with
    | none => exact (by decide : relOkList defaultsFor.religions = true)
    | some l => exact hq

/-- Claim C8: the enabled-category set is always a subset of the fixed
3-element vocabulary: it holds for the defaults, setreligions filters its
free-text input against the vocabulary before storing, and every command
handler and the daily-run persistence preserve the stored invariant. -/
theorem religions_vocabulary_invariant (m : GuildMap) (gid : String)
    (cmd : BotCommand) (g : Guild) (raw2 : List Item) :
    relOkList defaultsFor.religions = true ∧
    (∀ raw, relOkList (parseReligions raw) = true) ∧
    (mapInv m = true → mapInv (handleCommand m gid cmd).configs = true) ∧
    (mapInv m = true → mapInv (processGuild m g raw2).configs = true) := by
  refine ⟨by decide, parseReligions_relOk, ?_, ?_⟩
  · intro hm
    have hmerged := relOkEntry_merged m gid hm
    have hnorm : mapInv (normalizeEntry m gid) = true :=
      mapInv_setEntry m gid _ hm hmerged
    have hentry : getEntry (normalizeEntry m gid) gid
        = some (toPartial (effective m gid)) := getEntry_setEntry_self m _ _
    cases cmd with
    | setWishesChannel cid ty =>
      simp only [handleCommand]
      by_cases hc : (ty == guildTextType || ty == publicThreadType
          || ty == privateThreadType) = true
      · rw [if_pos hc]
        unfold updateEntry
        rw [hentry]
        refine mapInv_setEntry _ _ _ hnorm ?_
        rcases heff : effective m gid with ⟨ec, el, er, em, emaj⟩
        rw [heff] at hmerged
        exact hmerged
      · rw [if_neg hc]
        exact hnorm
    | setReligions raw =>
      simp only [handleCommand]
      by_cases hc : (parseReligions raw).isEmpty = true
      · rw [if_pos hc]
        exact hnorm
      · rw [if_neg hc]
        unfold updateEntry
        rw [hentry]
        refine mapInv_setEntry _ _ _ hnorm ?_
        show relOkList (jsSetDedup [] (parseReligions raw)) = true
        exact relOkList_sub _ _ (jsSetDedup_sub _ []) (parseReligions_relOk raw)
    | setMention raw =>
      simp only [handleCommand]
      by_cases hc : (jsToLower raw == "everyone" || jsToLower raw == "here"
          || jsToLower raw == "none") = true
      · rw [if_pos hc]
        unfold updateEntry
        rw [hentry]
        refine mapInv_setEntry _ _ _ hnorm ?_
        rcases heff : effective m gid with ⟨ec, el, er, em, emaj⟩
        rw [heff] at hmerged
        exact hmerged
      · rw [if_neg hc]
        exact hnorm
    | setMajor b =>
      simp only [handleCommand]
      unfold updateEntry
      rw [hentry]
      refine mapInv_setEntry _ _ _ hnorm ?_
      rcases heff : effective m gid with ⟨ec, el, er, em, emaj⟩
      rw [heff] at hmerged
      exact hmerged
  · intro hm
    unfold processGuild
    split
    · exact hm
    · split
      · exact hm
      · exact mapInv_setEntry m g.id _ hm (relOkEntry_merged m g.id hm)

/-- Witness for C8: setreligions with a partly-invalid list keeps the map
inside the vocabulary. -/
theorem religions_vocabulary_invariant_witness :
    relOkList defaultsFor.religions = true ∧
    mapInv (handleCommand [] "g1"
        (BotCommand.setReligions "hindu, buddhist")).configs = true :=
  ⟨(religions_vocabulary_invariant [] "g1"
      (BotCommand.setReligions "hindu, buddhist") ⟨"g1", []⟩ []).1,
   (religions_vocabulary_invariant [] "g1"
      (BotCommand.setReligions "hindu, buddhist") ⟨"g1", []⟩ []).2.2.1 rfl⟩

/-- Claim C9: a destination the daily run actually processes (some filtered
event survives and a channel resolves) always gets its (possibly unchanged)
merged settings written back; a destination skipped for lack of events has
no write at all. -/
theorem daily_persists_settings (m : GuildMap) (g : Guild) (raw : List Item) :
    (¬ (processGuild m g raw).festivals = [] →
      ¬ (processGuild m g raw).chan = none →
      (processGuild m g raw).saved = true ∧
      getEntry (processGuild m g raw).configs g.id
        = some (toPartial (effective m g.id))) ∧
    ((processGuild m g raw).festivals = [] →
      (processGuild m g raw).saved = false ∧ (processGuild m g raw).configs = m) := by
  unfold processGuild
  split
  · rename_i hemp
    constructor
    · intro hne _
      exact absurd (List.isEmpty_iff.mp hemp) hne
    · intro _
      exact ⟨rfl, rfl⟩
  · rename_i hemp
    split
    · constructor
      · intro _ hcn
        exact absurd rfl hcn
      · intro hf
        exact absurd (List.isEmpty_iff.mpr hf) hemp
    · constructor
      · intro _ _
        exact ⟨rfl, getEntry_setEntry_self m g.id _⟩
      · intro hf
        exact absurd (List.isEmpty_iff.mpr hf) hemp

/-- Witness for C9: a guild with a general channel and a Diwali event is
processed and its settings entry is saved. -/
theorem daily_persists_settings_witness :
    (processGuild [] (⟨"g1", [⟨"c1", 0, "general"⟩]⟩ : Guild)
        [⟨"Diwali", "", [], ""⟩]).saved = true :=
  ((daily_persists_settings [] ⟨"g1", [⟨"c1", 0, "general"⟩]⟩
      [⟨"Diwali", "", [], ""⟩]).1 (by decide) (by decide)).1

/-- Claim C10: the set-channel command accepts public and private threads,
but channel resolution for delivery yields nothing for any non-guild-text
channel, so a destination configured with a thread never has its configured
channel used: the daily run either uses the by-name fallback channel (a
guild-text channel literally named announcements or general) or skips. -/
theorem thread_channel_fallback (m : GuildMap) (g : Guild) (raw : List Item)
    (cid : String) (ch : Channel)
    (hfind : g.channels.find? (fun c => c.id == cid) = some ch)
    (hthread : ch.type = publicThreadType ∨ ch.type = privateThreadType) :
    (handleCommand m g.id (BotCommand.setWishesChannel cid ch.type)).saved = true ∧
    (effective (handleCommand m g.id
        (BotCommand.setWishesChannel cid ch.type)).configs g.id).channelId
      = some cid ∧
    resolveChannel g (some cid) = none ∧
    ((processGuild (handleCommand m g.id
          (BotCommand.setWishesChannel cid ch.type)).configs g raw).chan = none ∨
      (processGuild (handleCommand m g.id
          (BotCommand.setWishesChannel cid ch.type)).configs g raw).chan
        = fallbackChannel g) ∧
    (∀ c2, fallbackChannel g = some c2 →
      c2.type = guildTextType
        ∧ (jsToLower c2.name = "announcements" ∨ jsToLower c2.name = "general")) := by
  have hty : (ch.type == guildTextType || ch.type == publicThreadType
      || ch.type == privateThreadType) = true := by
    rcases hthread with h | h <;>
      simp [h, guildTextType, publicThreadType, privateThreadType]
  have heq : handleCommand m g.id (BotCommand.setWishesChannel cid ch.type)
      = ⟨updateEntry (normalizeEntry m g.id) g.id
          (fun p => { p with channelId := some (some cid) }), true,
          "✅ Will post in <#" ++ cid ++ "> daily at **01:00 Asia/Kolkata**."⟩ := by
    simp only [handleCommand]
    rw [if_pos hty]
  have hmem : (effective (updateEntry (normalizeEntry m g.id) g.id
      (fun p => { p with channelId := some (some cid) })) g.id).channelId
      = some cid := by
    unfold updateEntry effective
    rw [getEntry_setEntry_self]
    rfl
  have hres : resolveChannel g (some cid) = none := by
    simp only [resolveChannel]
    rw [hfind]
    rcases hthread with h | h <;>
      simp [h, guildTextType, publicThreadType, privateThreadType]
  refine ⟨by rw [heq], ?_, hres, ?_, ?_⟩
  · simp only [heq]
    exact hmem
  · simp only [heq]
    unfold processGuild
    have hscrut : (resolveChannel g (effective (updateEntry (normalizeEntry m g.id)
        g.id (fun p => { p with channelId := some (some cid) })) g.id).channelId).orElse
          (fun _ => fallbackChannel g) = fallbackChannel g := by
      rw [hmem, hres]
      rfl
    rw [hscrut]
    split
    · exact Or.inl rfl
    · cases hfb : fallbackChannel g with
      | none => exact Or.inl rfl
      | some c2 => exact Or.inr rfl
  · intro c2 hc2
    unfold fallbackChannel at hc2
    have hp := List.find?_some hc2
    simp only [Bool.and_eq_true, Bool.or_eq_true, beq_iff_eq] at hp
    exact ⟨hp.1, hp.2⟩

/-- Witness for C10: a public thread is accepted by the command yet delivery
falls back to the general channel. -/
theorem thread_channel_fallback_witness :
    (handleCommand [] "g1" (BotCommand.setWishesChannel "t1" 11)).saved = true ∧
    resolveChannel (⟨"g1", [⟨"t1", 11, "wishes"⟩, ⟨"c1", 0, "general"⟩]⟩ : Guild)
        (some "t1") = none :=
  ⟨(thread_channel_fallback [] ⟨"g1", [⟨"t1", 11, "wishes"⟩, ⟨"c1", 0, "general"⟩]⟩
      [⟨"Diwali", "", [], ""⟩] "t1" ⟨"t1", 11, "wishes"⟩ (by decide) (Or.inl rfl)).1,
   (thread_channel_fallback [] ⟨"g1", [⟨"t1", 11, "wishes"⟩, ⟨"c1", 0, "general"⟩]⟩
      [⟨"Diwali", "", [], ""⟩] "t1" ⟨"t1", 11, "wishes"⟩ (by decide) (Or.inl rfl)).2.2.1⟩
